import Mathlib

/-!
# Verification of the key-value store server (src/server/main.go)

A shallow embedding of the server's per-connection request processing:
the in-memory string map (`store`), the statistics counters, the line
tokenizer (`strings.Fields` / `strings.TrimRight`), and the command
dispatch of `handleConn`. Networking and time are outside the model;
everything below is the pure state transformation the Go code performs
on one connection's stream of lines.
-/

namespace KV

/-- The protocol version string (`Version` constant in main.go). -/
def Version : String := "KV/1.0"

/-- Whitespace as recognized by Go's `unicode.IsSpace`, which is what
`strings.Fields` splits on: ASCII space characters plus the Unicode
White_Space code points. -/
def isGoSpace (c : Char) : Bool :=
  c == '\t' || c == '\n' || c == '\x0b' || c == '\x0c' || c == '\r' || c == ' ' ||
  c == '\u0085' || c == '\u00A0' || c == '\u1680' ||
  ('\u2000' ≤ c && c ≤ '\u200A') ||
  c == '\u2028' || c == '\u2029' || c == '\u202F' || c == '\u205F' || c == '\u3000'

/-- Scanner underlying `strings.Fields`: walk the characters, accumulating
the current (reversed) token in `acc`; a space character ends the current
token, a non-space extends it. -/
def fieldsAux : List Char → List Char → List (List Char)
  | [], acc => if acc = [] then [] else [acc.reverse]
  | c :: cs, acc =>
    if isGoSpace c then
      if acc = [] then fieldsAux cs [] else acc.reverse :: fieldsAux cs []
    else fieldsAux cs (c :: acc)

/-- `strings.Fields`: split a string around runs of whitespace; the result
never contains an empty token. -/
def goFields (s : String) : List String :=
  (fieldsAux s.data []).map fun cs => ⟨cs⟩

/-- `strings.ToUpper` as applied to the command token: uppercase each
character (the command words it is compared against are ASCII). -/
def goToUpper (s : String) : String :=
  ⟨s.data.map Char.toUpper⟩

/-- `strings.TrimRight(line, "\r\n")`: remove every trailing `'\r'` or
`'\n'` character. -/
def trimRightCRLF (s : String) : String :=
  ⟨(s.data.reverse.dropWhile fun c => c == '\r' || c == '\n').reverse⟩

/-! ## The key-value map

The Go `store` holds a `map[string]string`. We model it as an association
list with in-place update, together with the representation invariant
(unique keys) that every Go map satisfies. -/

/-- The store's data: the entries of the `map[string]string`. -/
abbrev StoreData := List (String × String)

/-- Map indexing `s.data[k]`: first entry whose key matches. -/
def mapLookup : StoreData → String → Option String
  | [], _ => none
  | (k', v) :: rest, k => if k' = k then some v else mapLookup rest k

/-- Map assignment `s.data[k] = v`: overwrite in place, or append a new
entry when the key is absent. -/
def mapInsert : StoreData → String → String → StoreData
  | [], k, v => [(k, v)]
  | (k', v') :: rest, k, v =>
    if k' = k then (k, v) :: rest else (k', v') :: mapInsert rest k v

/-- `delete(s.data, k)`: remove the entry with key `k`, if any. -/
def mapErase : StoreData → String → StoreData
  | [], _ => []
  | (k', v') :: rest, k => if k' = k then rest else (k', v') :: mapErase rest k

/-- Representation invariant of a Go map rendered as an entry list:
all keys distinct. -/
def mapWF (d : StoreData) : Prop := (d.map Prod.fst).Nodup

instance (d : StoreData) : Decidable (mapWF d) := by
  unfold mapWF; infer_instance

/-- `store.put`: insert or overwrite; `created` is true iff the key was
absent (main.go lines 28-34). Returns the new data and `created`. -/
def storePut (d : StoreData) (k v : String) : StoreData × Bool :=
  let existed := (mapLookup d k).isSome
  (mapInsert d k v, !existed)

/-- `store.get`: lookup without mutation (main.go lines 36-41); Go's
`(value, ok)` pair is rendered as an `Option`. -/
def storeGet (d : StoreData) (k : String) : Option String :=
  mapLookup d k

/-- `store.del`: remove the key if present, reporting whether removal
occurred (main.go lines 43-51). -/
def storeDel (d : StoreData) (k : String) : StoreData × Bool :=
  if (mapLookup d k).isSome then (mapErase d k, true) else (d, false)

/-- `store.size`: `len(s.data)` (main.go lines 53-57). -/
def storeSize (d : StoreData) : Nat := d.length

/-! ## Server state and request processing -/

/-- The request-related counters of the `stats` struct. Connection
counters and the start time concern the network layer and are not part of
the per-line model. -/
structure Stats where
  reqCount : Nat
  putCount : Nat
  getCount : Nat
  delCount : Nat
  deriving Repr, DecidableEq

/-- The mutable state `handleConn` acts on: the shared store and the
counters. -/
structure ServerState where
  store : StoreData
  stats : Stats
  deriving Repr, DecidableEq

/-- Server state at startup: empty map, zero counters. -/
def initState : ServerState := { store := [], stats := ⟨0, 0, 0, 0⟩ }

/-- The pure fields of `snapshotStats` (main.go lines 90-105): request and
per-command counters plus the current key count. `version`, `uptime_sec`
and the connection counters depend on wall clock and the network layer. -/
structure StatsSnapshot where
  req_count : Nat
  put_count : Nat
  get_count : Nat
  del_count : Nat
  keys : Nat
  deriving Repr, DecidableEq

/-- `snapshotStats` restricted to its pure fields. -/
def snapshotStats (st : ServerState) : StatsSnapshot :=
  { req_count := st.stats.reqCount
    put_count := st.stats.putCount
    get_count := st.stats.getCount
    del_count := st.stats.delCount
    keys := storeSize st.store }

/-- `sv.incr(&sv.stats.ReqCount, 1)`. -/
def incrReq (st : ServerState) : ServerState :=
  { st with stats := { st.stats with reqCount := st.stats.reqCount + 1 } }

/-- `sv.incr(&sv.stats.PutCount, 1)`. -/
def incrPut (st : ServerState) : ServerState :=
  { st with stats := { st.stats with putCount := st.stats.putCount + 1 } }

/-- `sv.incr(&sv.stats.GetCount, 1)`. -/
def incrGet (st : ServerState) : ServerState :=
  { st with stats := { st.stats with getCount := st.stats.getCount + 1 } }

/-- `sv.incr(&sv.stats.DelCount, 1)`. -/
def incrDel (st : ServerState) : ServerState :=
  { st with stats := { st.stats with delCount := st.stats.delCount + 1 } }

/-- One response line written by `writeResp`. A plain line `text s` stands
for the bytes `s ++ "\n"`; `statsLine snap` stands for
`"200 OK " ++ <json rendering of the snapshot> ++ "\n"`. -/
inductive Resp where
  | text (s : String)
  | statsLine (snap : StatsSnapshot)
  deriving Repr, DecidableEq

/-- Result of handling one received line: the new state, the response
written (none for a blank line), and whether the handler returns
(closing the connection, as QUIT does). -/
structure StepResult where
  state : ServerState
  resp : Option Resp
  closeConn : Bool
  deriving Repr, DecidableEq

/-- The command dispatch of `handleConn` (main.go lines 131-199), acting
on the token list of a non-blank line; the request counter has already
been incremented by the caller. -/
def processTokens (st : ServerState) (toks : List String) : StepResult :=
  match toks with
  | [] => ⟨st, some (.text "400 BAD_REQUEST"), false⟩
  | [_] => ⟨st, some (.text "400 BAD_REQUEST"), false⟩
  | ver :: cmdTok :: args =>
    if ver ≠ Version then ⟨st, some (.text "426 UPGRADE_REQUIRED"), false⟩
    else
      let cmd := goToUpper cmdTok
      if cmd = "PUT" then
        match args with
        | key :: value :: _ =>
          let r := storePut st.store key value
          let st' := incrPut { st with store := r.1 }
          ⟨st', some (.text (if r.2 then "201 CREATED" else "200 OK")), false⟩
        | _ => ⟨st, some (.text "400 BAD_REQUEST"), false⟩
      else if cmd = "GET" then
        match args with
        | [key] =>
          match storeGet st.store key with
          | some val => ⟨incrGet st, some (.text ("200 OK " ++ val)), false⟩
          | none => ⟨st, some (.text "404 NOT_FOUND"), false⟩
        | _ => ⟨st, some (.text "400 BAD_REQUEST"), false⟩
      else if cmd = "DEL" then
        match args with
        | [key] =>
          let r := storeDel st.store key
          if r.2 then ⟨incrDel { st with store := r.1 }, some (.text "204 NO_CONTENT"), false⟩
          else ⟨st, some (.text "404 NOT_FOUND"), false⟩
        | _ => ⟨st, some (.text "400 BAD_REQUEST"), false⟩
      else if cmd = "STATS" then
        match args with
        | [] => ⟨st, some (.statsLine (snapshotStats st)), false⟩
        | _ => ⟨st, some (.text "400 BAD_REQUEST"), false⟩
      else if cmd = "QUIT" then ⟨st, some (.text "200 OK bye"), true⟩
      else ⟨st, some (.text "400 BAD_REQUEST"), false⟩

/-- Handling of one received line (the body of the read loop, main.go
lines 122-199): strip trailing CR/LF, skip blank lines silently, otherwise
count the request, tokenize, and dispatch. -/
def processLine (st : ServerState) (rawLine : String) : StepResult :=
  let line := trimRightCRLF rawLine
  if line = "" then ⟨st, none, false⟩
  else processTokens (incrReq st) (goFields line)

/-- The read loop over a whole sequence of received lines; stops early
when a step closes the connection. -/
def runLines : ServerState → List String → ServerState
  | st, [] => st
  | st, l :: ls =>
    if (processLine st l).closeConn then (processLine st l).state
    else runLines (processLine st l).state ls

/-! ## Events counted by the statistics (for the STATS accounting claim)

A line is a *successful PUT* when it parses to a correct-version PUT with
key and value present; a *GET/DEL hit* when it parses to a correct-version
GET/DEL whose key is currently in the store. -/

/-- Token-level test: the line executes the PUT branch. -/
def putEvent (toks : List String) : Bool :=
  match toks with
  | ver :: cmdTok :: _ :: _ :: _ => ver == Version && goToUpper cmdTok == "PUT"
  | _ => false

/-- Token-level test: the line executes the GET branch and hits. -/
def getHitEvent (d : StoreData) (toks : List String) : Bool :=
  match toks with
  | [ver, cmdTok, key] =>
    ver == Version && goToUpper cmdTok == "GET" && (mapLookup d key).isSome
  | _ => false

/-- Token-level test: the line executes the DEL branch and hits. -/
def delHitEvent (d : StoreData) (toks : List String) : Bool :=
  match toks with
  | [ver, cmdTok, key] =>
    ver == Version && goToUpper cmdTok == "DEL" && (mapLookup d key).isSome
  | _ => false

/-- Line-level test for a successful PUT. -/
def linePut (l : String) : Bool := putEvent (goFields (trimRightCRLF l))

/-- Line-level test for a GET hit against the given state. -/
def lineGetHit (st : ServerState) (l : String) : Bool :=
  getHitEvent st.store (goFields (trimRightCRLF l))

/-- Line-level test for a DEL hit against the given state. -/
def lineDelHit (st : ServerState) (l : String) : Bool :=
  delHitEvent st.store (goFields (trimRightCRLF l))

/-- How many lines of the sequence satisfy the (state-dependent) test when
processed in order from `st`, stopping after a line that closes the
connection — the number of occurrences of an event during the run. -/
def countRun (f : ServerState → String → Bool) : ServerState → List String → Nat
  | _, [] => 0
  | st, l :: ls =>
    (if f st l then 1 else 0) +
      (if (processLine st l).closeConn then 0
       else countRun f (processLine st l).state ls)

/-- The number of live keys: distinct keys among the store's entries. -/
def numLiveKeys (d : StoreData) : Nat := ((d.map Prod.fst).dedup).length

/-! ## Lemmas about the map model -/

theorem mapLookup_insert_self (d : StoreData) (k v : String) :
    mapLookup (mapInsert d k v) k = some v := by
  induction d with
  | nil => simp [mapInsert, mapLookup]
  | cons p rest ih =>
    obtain ⟨k', v'⟩ := p
    by_cases h : k' = k
    · simp [mapInsert, mapLookup, h]
    · simp [mapInsert, mapLookup, h, ih]

theorem mapLookup_eq_none_of_not_mem :
    ∀ (d : StoreData) (k : String), k ∉ d.map Prod.fst → mapLookup d k = none
  | [], _, _ => by simp [mapLookup]
  | (k', v') :: rest, k, h => by
    simp only [List.map_cons, List.mem_cons] at h
    push_neg at h
    have hne : ¬ k' = k := fun hq => h.1 hq.symm
    simp [mapLookup, hne, mapLookup_eq_none_of_not_mem rest k h.2]

theorem mem_of_mapLookup_isSome (d : StoreData) (k : String)
    (h : (mapLookup d k).isSome) : k ∈ d.map Prod.fst := by
  by_contra hmem
  rw [mapLookup_eq_none_of_not_mem d k hmem] at h
  simp at h

theorem keys_mapInsert_subset :
    ∀ (d : StoreData) (k v a : String),
      a ∈ (mapInsert d k v).map Prod.fst → a ∈ d.map Prod.fst ∨ a = k
  | [], k, v, a, h => by simpa [mapInsert] using h
  | (k', v') :: rest, k, v, a, h => by
    by_cases hk : k' = k
    · subst hk
      simp only [mapInsert, if_true, eq_self_iff_true, List.map_cons,
        List.mem_cons, reduceIte] at h
      rcases h with h | h
      · exact Or.inr h
      · exact Or.inl (List.mem_cons_of_mem _ h)
    · simp only [mapInsert, if_neg hk, List.map_cons, List.mem_cons] at h ⊢
      rcases h with h | h
      · exact Or.inl (Or.inl h)
      · rcases keys_mapInsert_subset rest k v a h with h' | h'
        · exact Or.inl (Or.inr h')
        · exact Or.inr h'

theorem mapWF_insert :
    ∀ (d : StoreData) (k v : String), mapWF d → mapWF (mapInsert d k v)
  | [], k, v, _ => by simp [mapWF, mapInsert]
  | (k', v') :: rest, k, v, h => by
    simp only [mapWF, List.map_cons, List.nodup_cons] at h
    by_cases hk : k' = k
    · subst hk
      simpa [mapWF, mapInsert] using h
    · have hrest := mapWF_insert rest k v h.2
      simp only [mapWF, mapInsert, if_neg hk, List.map_cons, List.nodup_cons]
      refine ⟨fun hmem => ?_, hrest⟩
      rcases keys_mapInsert_subset rest k v k' hmem with h' | h'
      · exact h.1 h'
      · exact hk h'

theorem keys_mapErase_sublist :
    ∀ (d : StoreData) (k : String),
      List.Sublist ((mapErase d k).map Prod.fst) (d.map Prod.fst)
  | [], _ => by simp [mapErase]
  | (k', v') :: rest, k => by
    by_cases hk : k' = k
    · simp only [mapErase, if_pos hk, List.map_cons]
      exact List.sublist_cons_self _ _
    · simp only [mapErase, if_neg hk, List.map_cons]
      exact (keys_mapErase_sublist rest k).cons₂ k'

theorem mapWF_erase (d : StoreData) (k : String) (h : mapWF d) :
    mapWF (mapErase d k) :=
  (keys_mapErase_sublist d k).nodup h

theorem mapLookup_erase_self :
    ∀ (d : StoreData) (k : String), mapWF d → mapLookup (mapErase d k) k = none
  | [], k, _ => by simp [mapErase, mapLookup]
  | (k', v') :: rest, k, h => by
    simp only [mapWF, List.map_cons, List.nodup_cons] at h
    by_cases hk : k' = k
    · subst hk
      simp only [mapErase, eq_self_iff_true, reduceIte]
      exact mapLookup_eq_none_of_not_mem rest k' h.1
    · have := mapLookup_erase_self rest k h.2
      simp [mapErase, if_neg hk, mapLookup, hk, this]

theorem length_mapErase_of_isSome :
    ∀ (d : StoreData) (k : String),
      (mapLookup d k).isSome → (mapErase d k).length + 1 = d.length
  | [], k, h => by simp [mapLookup] at h
  | (k', v') :: rest, k, h => by
    by_cases hk : k' = k
    · simp [mapErase, if_pos hk]
    · simp only [mapLookup, if_neg hk] at h
      simp [mapErase, if_neg hk, length_mapErase_of_isSome rest k h]

theorem numLiveKeys_eq_length (d : StoreData) (h : mapWF d) :
    numLiveKeys d = d.length := by
  unfold numLiveKeys
  rw [List.dedup_eq_self.mpr h]
  simp

/-! ## Step characterization: which lines bump which counters -/

theorem processTokens_counters (st : ServerState) (toks : List String) :
    (processTokens st toks).state.stats.putCount
        = st.stats.putCount + (if putEvent toks then 1 else 0) ∧
      (processTokens st toks).state.stats.getCount
        = st.stats.getCount + (if getHitEvent st.store toks then 1 else 0) ∧
      (processTokens st toks).state.stats.delCount
        = st.stats.delCount + (if delHitEvent st.store toks then 1 else 0) := by
  rcases toks with _ | ⟨ver, _ | ⟨c, args⟩⟩
  · simp [processTokens, putEvent, getHitEvent, delHitEvent]
  · simp [processTokens, putEvent, getHitEvent, delHitEvent]
  · by_cases hv : ver = Version
    · subst hv
      rcases args with _ | ⟨a, _ | ⟨b, rest⟩⟩
      · by_cases hput : goToUpper c = "PUT" <;>
          by_cases hget : goToUpper c = "GET" <;>
            by_cases hdel : goToUpper c = "DEL" <;>
              by_cases hstats : goToUpper c = "STATS" <;>
                by_cases hquit : goToUpper c = "QUIT" <;>
                  simp_all [processTokens, putEvent, getHitEvent, delHitEvent,
                    incrPut, incrGet, incrDel]
      · rcases hlk : mapLookup st.store a with _ | val <;>
          by_cases hput : goToUpper c = "PUT" <;>
            by_cases hget : goToUpper c = "GET" <;>
              by_cases hdel : goToUpper c = "DEL" <;>
                by_cases hstats : goToUpper c = "STATS" <;>
                  by_cases hquit : goToUpper c = "QUIT" <;>
                    simp_all [processTokens, putEvent, getHitEvent, delHitEvent,
                      incrPut, incrGet, incrDel, storeGet, storeDel]
      · by_cases hput : goToUpper c = "PUT" <;>
          by_cases hget : goToUpper c = "GET" <;>
            by_cases hdel : goToUpper c = "DEL" <;>
              by_cases hstats : goToUpper c = "STATS" <;>
                by_cases hquit : goToUpper c = "QUIT" <;>
                  simp_all [processTokens, putEvent, getHitEvent, delHitEvent,
                    incrPut, incrGet, incrDel, storePut]
    · rcases args with _ | ⟨a, _ | ⟨b, rest⟩⟩ <;>
        simp [processTokens, putEvent, getHitEvent, delHitEvent, hv]

theorem processTokens_WF (st : ServerState) (toks : List String)
    (h : mapWF st.store) : mapWF (processTokens st toks).state.store := by
  rcases toks with _ | ⟨ver, _ | ⟨c, args⟩⟩
  · simpa [processTokens] using h
  · simpa [processTokens] using h
  · by_cases hv : ver = Version
    · subst hv
      rcases args with _ | ⟨a, _ | ⟨b, rest⟩⟩
      · by_cases hput : goToUpper c = "PUT" <;>
          by_cases hget : goToUpper c = "GET" <;>
            by_cases hdel : goToUpper c = "DEL" <;>
              by_cases hstats : goToUpper c = "STATS" <;>
                by_cases hquit : goToUpper c = "QUIT" <;>
                  simp_all [processTokens, incrPut, incrGet, incrDel]
      · rcases hlk : mapLookup st.store a with _ | val <;>
          by_cases hput : goToUpper c = "PUT" <;>
            by_cases hget : goToUpper c = "GET" <;>
              by_cases hdel : goToUpper c = "DEL" <;>
                by_cases hstats : goToUpper c = "STATS" <;>
                  by_cases hquit : goToUpper c = "QUIT" <;>
                    simp_all [processTokens, incrPut, incrGet, incrDel,
                      storeGet, storeDel, mapWF_erase]
      · by_cases hput : goToUpper c = "PUT" <;>
          by_cases hget : goToUpper c = "GET" <;>
            by_cases hdel : goToUpper c = "DEL" <;>
              by_cases hstats : goToUpper c = "STATS" <;>
                by_cases hquit : goToUpper c = "QUIT" <;>
                  simp_all [processTokens, incrPut, incrGet, incrDel,
                    storePut, mapWF_insert]
    · rcases args with _ | ⟨a, _ | ⟨b, rest⟩⟩ <;>
        simpa [processTokens, hv] using h

theorem goFields_nil : goFields "" = [] := rfl

theorem processLine_counters (st : ServerState) (l : String) :
    (processLine st l).state.stats.putCount
        = st.stats.putCount + (if linePut l then 1 else 0) ∧
      (processLine st l).state.stats.getCount
        = st.stats.getCount + (if lineGetHit st l then 1 else 0) ∧
      (processLine st l).state.stats.delCount
        = st.stats.delCount + (if lineDelHit st l then 1 else 0) := by
  unfold processLine linePut lineGetHit lineDelHit
  by_cases hb : trimRightCRLF l = ""
  · simp [hb, goFields_nil, putEvent, getHitEvent, delHitEvent]
  · simp only [if_neg hb]
    have h := processTokens_counters (incrReq st) (goFields (trimRightCRLF l))
    simpa [incrReq] using h

theorem processLine_WF (st : ServerState) (l : String) (h : mapWF st.store) :
    mapWF (processLine st l).state.store := by
  unfold processLine
  by_cases hb : trimRightCRLF l = ""
  · simpa [hb] using h
  · simp only [if_neg hb]
    exact processTokens_WF _ _ (by simpa [incrReq] using h)

theorem runLines_putCount : ∀ (ls : List String) (st : ServerState),
    (runLines st ls).stats.putCount
      = st.stats.putCount + countRun (fun _ l => linePut l) st ls
  | [], st => by simp [runLines, countRun]
  | l :: ls, st => by
    by_cases hc : (processLine st l).closeConn
    · simp [runLines, countRun, hc, (processLine_counters st l).1]
    · simp only [runLines, countRun, if_neg hc]
      rw [runLines_putCount ls (processLine st l).state,
        (processLine_counters st l).1]
      omega

theorem runLines_getCount : ∀ (ls : List String) (st : ServerState),
    (runLines st ls).stats.getCount
      = st.stats.getCount + countRun lineGetHit st ls
  | [], st => by simp [runLines, countRun]
  | l :: ls, st => by
    by_cases hc : (processLine st l).closeConn
    · simp [runLines, countRun, hc, (processLine_counters st l).2.1]
    · simp only [runLines, countRun, if_neg hc]
      rw [runLines_getCount ls (processLine st l).state,
        (processLine_counters st l).2.1]
      omega

theorem runLines_delCount : ∀ (ls : List String) (st : ServerState),
    (runLines st ls).stats.delCount
      = st.stats.delCount + countRun lineDelHit st ls
  | [], st => by simp [runLines, countRun]
  | l :: ls, st => by
    by_cases hc : (processLine st l).closeConn
    · simp [runLines, countRun, hc, (processLine_counters st l).2.2]
    · simp only [runLines, countRun, if_neg hc]
      rw [runLines_delCount ls (processLine st l).state,
        (processLine_counters st l).2.2]
      omega

theorem runLines_WF : ∀ (ls : List String) (st : ServerState),
    mapWF st.store → mapWF (runLines st ls).store
  | [], st, h => by simpa [runLines] using h
  | l :: ls, st, h => by
    have hstep := processLine_WF st l h
    by_cases hc : (processLine st l).closeConn
    · simpa [runLines, hc] using hstep
    · simp only [runLines, if_neg hc]
      exact runLines_WF ls _ hstep

/-! ## One lemma per command branch of the dispatch -/

theorem goToUpper_PUT : goToUpper "PUT" = "PUT" := by decide

theorem goToUpper_GET : goToUpper "GET" = "GET" := by decide

theorem goToUpper_DEL : goToUpper "DEL" = "DEL" := by decide

theorem goToUpper_STATS : goToUpper "STATS" = "STATS" := by decide

theorem processTokens_put (st : ServerState) (k v : String) (rest : List String) :
    processTokens st ("KV/1.0" :: "PUT" :: k :: v :: rest)
      = ⟨incrPut { st with store := mapInsert st.store k v },
         some (.text (if (mapLookup st.store k).isSome then "200 OK"
                      else "201 CREATED")),
         false⟩ := by
  cases hlk : (mapLookup st.store k).isSome <;>
    simp [processTokens, Version, goToUpper_PUT, storePut, hlk]

theorem processTokens_get_hit (st : ServerState) (k v : String)
    (h : mapLookup st.store k = some v) :
    processTokens st ["KV/1.0", "GET", k]
      = ⟨incrGet st, some (.text ("200 OK " ++ v)), false⟩ := by
  simp [processTokens, Version, goToUpper_GET, storeGet, h]

theorem processTokens_get_miss (st : ServerState) (k : String)
    (h : mapLookup st.store k = none) :
    processTokens st ["KV/1.0", "GET", k]
      = ⟨st, some (.text "404 NOT_FOUND"), false⟩ := by
  simp [processTokens, Version, goToUpper_GET, storeGet, h]

theorem processTokens_del_hit (st : ServerState) (k : String)
    (h : (mapLookup st.store k).isSome) :
    processTokens st ["KV/1.0", "DEL", k]
      = ⟨incrDel { st with store := mapErase st.store k },
         some (.text "204 NO_CONTENT"), false⟩ := by
  simp [processTokens, Version, goToUpper_DEL, storeDel, h]

theorem processTokens_del_miss (st : ServerState) (k : String)
    (h : mapLookup st.store k = none) :
    processTokens st ["KV/1.0", "DEL", k]
      = ⟨st, some (.text "404 NOT_FOUND"), false⟩ := by
  simp [processTokens, Version, goToUpper_DEL, storeDel, h]

theorem processTokens_stats (st : ServerState) :
    processTokens st ["KV/1.0", "STATS"]
      = ⟨st, some (.statsLine (snapshotStats st)), false⟩ := by
  simp [processTokens, Version, goToUpper_STATS]

/-! ## The claims -/

/-- C1: last-write-wins with read-after-write visibility. For every key
`k` and values `v1`, `v2`, after executing `PUT(k, v1)` then `PUT(k, v2)`
on the store, a subsequent `GET(k)` finds the key and returns `v2`,
rendered as the response line `200 OK v2`. -/
theorem claim1_last_write_wins (st : ServerState) (k v1 v2 : String) :
    (processTokens
        (processTokens
          (processTokens st ["KV/1.0", "PUT", k, v1]).state
          ["KV/1.0", "PUT", k, v2]).state
        ["KV/1.0", "GET", k]).resp
      = some (.text ("200 OK " ++ v2)) := by
  rw [processTokens_put st k v1 [], processTokens_put _ k v2 []]
  rw [processTokens_get_hit _ k v2 (by simp [incrPut, mapLookup_insert_self])]

/-- C2: existence signaling. For every key `k` not present in the store,
`GET(k)` responds `404 NOT_FOUND`, `PUT(k, v)` responds `201 CREATED`, and
a second `PUT(k, v')` on the now-existing key responds `200 OK`; moreover
`put` returns `created = true` iff the key did not previously exist. -/
theorem claim2_existence_signaling (st : ServerState) (k v v' : String)
    (h : storeGet st.store k = none) :
    (processTokens st ["KV/1.0", "GET", k]).resp
        = some (.text "404 NOT_FOUND") ∧
      (processTokens st ["KV/1.0", "PUT", k, v]).resp
        = some (.text "201 CREATED") ∧
      (processTokens
          (processTokens st ["KV/1.0", "PUT", k, v]).state
          ["KV/1.0", "PUT", k, v']).resp
        = some (.text "200 OK") ∧
      ∀ d : StoreData, ∀ w : String, (storePut d k w).2 = (mapLookup d k).isNone := by
  rw [storeGet] at h
  refine ⟨?_, ?_, ?_, ?_⟩
  · rw [processTokens_get_miss st k h]
  · rw [processTokens_put st k v []]
    simp [h]
  · rw [processTokens_put st k v [], processTokens_put _ k v']
    simp [incrPut, mapLookup_insert_self]
  · intro d w
    simp only [storePut]
    cases mapLookup d k <;> simp

/-- C2 witness: on the empty store, GET of an absent key responds
`404 NOT_FOUND`. -/
theorem claim2_witness :
    (processTokens initState ["KV/1.0", "GET", "a"]).resp
      = some (.text "404 NOT_FOUND") :=
  (claim2_existence_signaling initState "a" "b" "c" (by decide)).1

/-- C3: DEL semantics. For every well-formed store and key `k` present in
it, `DEL(k)` responds `204 NO_CONTENT` and the store's size decreases by
exactly 1; an immediately repeated `DEL(k)` responds `404 NOT_FOUND` and
leaves the size unchanged. -/
theorem claim3_del_semantics (st : ServerState) (k : String)
    (hwf : mapWF st.store) (h : (mapLookup st.store k).isSome) :
    (processTokens st ["KV/1.0", "DEL", k]).resp
        = some (.text "204 NO_CONTENT") ∧
      storeSize (processTokens st ["KV/1.0", "DEL", k]).state.store + 1
        = storeSize st.store ∧
      (processTokens
          (processTokens st ["KV/1.0", "DEL", k]).state
          ["KV/1.0", "DEL", k]).resp
        = some (.text "404 NOT_FOUND") ∧
      storeSize (processTokens
          (processTokens st ["KV/1.0", "DEL", k]).state
          ["KV/1.0", "DEL", k]).state.store
        = storeSize (processTokens st ["KV/1.0", "DEL", k]).state.store := by
  have herase : mapLookup (mapErase st.store k) k = none :=
    mapLookup_erase_self st.store k hwf
  rw [processTokens_del_hit st k h]
  have hmiss := processTokens_del_miss
    (incrDel { st with store := mapErase st.store k }) k (by simpa [incrDel] using herase)
  refine ⟨rfl, ?_, ?_, ?_⟩
  · simpa [incrDel, storeSize] using length_mapErase_of_isSome st.store k h
  · rw [hmiss]
  · rw [hmiss]

/-- C3 witness: deleting the only key of a one-entry store responds
`204 NO_CONTENT`. -/
theorem claim3_witness :
    (processTokens ⟨[("a", "1")], ⟨0, 0, 0, 0⟩⟩ ["KV/1.0", "DEL", "a"]).resp
      = some (.text "204 NO_CONTENT") :=
  (claim3_del_semantics ⟨[("a", "1")], ⟨0, 0, 0, 0⟩⟩ "a" (by decide) (by decide)).1

/-- C8: a correct-version PUT line with 4 or more tokens stores token 3 as
the value for the key in token 2, silently discarding any further tokens,
and responds `201 CREATED` or `200 OK` according to whether the key was
absent. -/
theorem claim8_put_extra_tokens (st : ServerState) (k v : String)
    (rest : List String) :
    (processTokens st ("KV/1.0" :: "PUT" :: k :: v :: rest)).state.store
        = mapInsert st.store k v ∧
      mapLookup (processTokens st ("KV/1.0" :: "PUT" :: k :: v :: rest)).state.store k
        = some v ∧
      (processTokens st ("KV/1.0" :: "PUT" :: k :: v :: rest)).resp
        = some (.text (if (mapLookup st.store k).isSome then "200 OK"
                       else "201 CREATED")) ∧
      (processTokens st ("KV/1.0" :: "PUT" :: k :: v :: rest)).closeConn = false := by
  rw [processTokens_put st k v rest]
  exact ⟨by simp [incrPut], by simp [incrPut, mapLookup_insert_self], rfl, rfl⟩

/-- C10: read-only operations do not mutate the store. For every state and
key, a GET (hit or miss) leaves the store's map unchanged, and a STATS
snapshot leaves both the map and the key count unchanged. -/
theorem claim10_readonly_frame (st : ServerState) (k : String) :
    (processTokens st ["KV/1.0", "GET", k]).state.store = st.store ∧
      (processTokens st ["KV/1.0", "STATS"]).state.store = st.store ∧
      storeSize (processTokens st ["KV/1.0", "STATS"]).state.store
        = storeSize st.store := by
  refine ⟨?_, ?_, ?_⟩
  · rcases hlk : mapLookup st.store k with _ | val
    · rw [processTokens_get_miss st k hlk]
    · rw [processTokens_get_hit st k val hlk]
      simp [incrGet]
  · rw [processTokens_stats st]
  · rw [processTokens_stats st]

/-- Scanning a run of whitespace characters yields no token. -/
theorem fieldsAux_all_space :
    ∀ cs : List Char, (∀ c ∈ cs, isGoSpace c = true) → fieldsAux cs [] = []
  | [], _ => by simp [fieldsAux]
  | c :: cs, h => by
    have hc := h c (List.mem_cons_self c cs)
    have hrest := fieldsAux_all_space cs fun x hx => h x (List.mem_cons_of_mem c hx)
    simp [fieldsAux, hc, hrest]

/-- C4 counterexample: `KV/1.0 PUT k v extra` has 5 tokens, not the
required 4, for the recognized command PUT; yet the server responds
`201 CREATED` (not `400 BAD_REQUEST`) and mutates the store. -/
theorem claim4_counterexample :
    (processLine initState "KV/1.0 PUT k v extra").resp
        = some (.text "201 CREATED") ∧
      (processLine initState "KV/1.0 PUT k v extra").state.store = [("k", "v")] ∧
      ¬((processLine initState "KV/1.0 PUT k v extra").resp
            = some (.text "400 BAD_REQUEST") ∧
        (processLine initState "KV/1.0 PUT k v extra").state.store
            = initState.store) := by
  decide

/-- C4 amended: arity is enforced as a lower bound for PUT (fewer than 4
tokens → `400 BAD_REQUEST`; extra tokens are accepted), exactly for GET,
DEL (3 tokens) and STATS (2 tokens), and not at all for QUIT; in every
`400 BAD_REQUEST` case the state is unchanged. `KV/1.0 PUT onlykey`
responds `400 BAD_REQUEST` with the store unchanged. -/
theorem claim4_arity_enforcement (st : ServerState) (c : String)
    (args : List String) :
    (goToUpper c = "PUT" → args.length < 2 →
        processTokens st ("KV/1.0" :: c :: args)
          = ⟨st, some (.text "400 BAD_REQUEST"), false⟩) ∧
      (goToUpper c = "GET" → args.length ≠ 1 →
        processTokens st ("KV/1.0" :: c :: args)
          = ⟨st, some (.text "400 BAD_REQUEST"), false⟩) ∧
      (goToUpper c = "DEL" → args.length ≠ 1 →
        processTokens st ("KV/1.0" :: c :: args)
          = ⟨st, some (.text "400 BAD_REQUEST"), false⟩) ∧
      (goToUpper c = "STATS" → args ≠ [] →
        processTokens st ("KV/1.0" :: c :: args)
          = ⟨st, some (.text "400 BAD_REQUEST"), false⟩) ∧
      (goToUpper c = "QUIT" →
        processTokens st ("KV/1.0" :: c :: args)
          = ⟨st, some (.text "200 OK bye"), true⟩) ∧
      processLine st "KV/1.0 PUT onlykey"
        = ⟨incrReq st, some (.text "400 BAD_REQUEST"), false⟩ := by
  refine ⟨?_, ?_, ?_, ?_, ?_, ?_⟩
  · intro hc hlen
    rcases args with _ | ⟨a, _ | ⟨b, r⟩⟩
    · simp [processTokens, Version, hc]
    · simp [processTokens, Version, hc]
    · simp only [List.length_cons] at hlen
      omega
  · intro hc hlen
    rcases args with _ | ⟨a, _ | ⟨b, r⟩⟩
    · simp [processTokens, Version, hc]
    · simp at hlen
    · simp [processTokens, Version, hc]
  · intro hc hlen
    rcases args with _ | ⟨a, _ | ⟨b, r⟩⟩
    · simp [processTokens, Version, hc]
    · simp at hlen
    · simp [processTokens, Version, hc]
  · intro hc hargs
    rcases args with _ | ⟨a, r⟩
    · exact absurd rfl hargs
    · simp [processTokens, Version, hc]
  · intro hc
    simp [processTokens, Version, hc]
  · have h1 : trimRightCRLF "KV/1.0 PUT onlykey" = "KV/1.0 PUT onlykey" := by
      decide
    have h2 : goFields "KV/1.0 PUT onlykey" = ["KV/1.0", "PUT", "onlykey"] := by
      decide
    unfold processLine
    rw [h1]
    simp [h2, processTokens, Version, goToUpper_PUT]

/-- C4 witness: a 3-token PUT is rejected with the state unchanged, while
a 3-token QUIT is not rejected. -/
theorem claim4_arity_witness :
    processTokens initState ["KV/1.0", "PUT", "onlykey"]
        = ⟨initState, some (.text "400 BAD_REQUEST"), false⟩ ∧
      processTokens initState ["KV/1.0", "QUIT", "now"]
        = ⟨initState, some (.text "200 OK bye"), true⟩ :=
  ⟨(claim4_arity_enforcement initState "PUT" ["onlykey"]).1 (by decide) (by decide),
   (claim4_arity_enforcement initState "QUIT" ["now"]).2.2.2.2.1 (by decide)⟩

/-- C5: exact counter accounting. Over any sequence of lines processed
from startup, `put_count` equals the number of well-formed PUTs executed,
`get_count` the number of GET hits, `del_count` the number of DEL hits,
and `keys` the number of live (non-deleted) keys. -/
theorem claim5_stats_accounting (lines : List String) :
    (snapshotStats (runLines initState lines)).put_count
        = countRun (fun _ l => linePut l) initState lines ∧
      (snapshotStats (runLines initState lines)).get_count
        = countRun lineGetHit initState lines ∧
      (snapshotStats (runLines initState lines)).del_count
        = countRun lineDelHit initState lines ∧
      (snapshotStats (runLines initState lines)).keys
        = numLiveKeys (runLines initState lines).store := by
  have hwf : mapWF (runLines initState lines).store :=
    runLines_WF lines initState (by simp [initState, mapWF])
  refine ⟨?_, ?_, ?_, ?_⟩
  · simpa [snapshotStats, initState] using runLines_putCount lines initState
  · simpa [snapshotStats, initState] using runLines_getCount lines initState
  · simpa [snapshotStats, initState] using runLines_delCount lines initState
  · simp [snapshotStats, storeSize, numLiveKeys_eq_length _ hwf]

/-- C6: version gating. For every received line tokenizing to at least two
tokens whose first token is not exactly `KV/1.0`, the server responds
`426 UPGRADE_REQUIRED`, the store is unchanged, and no per-command counter
is incremented. -/
theorem claim6_version_gating (st : ServerState) (l t0 t1 : String)
    (rest : List String)
    (htoks : goFields (trimRightCRLF l) = t0 :: t1 :: rest)
    (hv : t0 ≠ Version) :
    (processLine st l).resp = some (.text "426 UPGRADE_REQUIRED") ∧
      (processLine st l).state.store = st.store ∧
      (processLine st l).state.stats.putCount = st.stats.putCount ∧
      (processLine st l).state.stats.getCount = st.stats.getCount ∧
      (processLine st l).state.stats.delCount = st.stats.delCount ∧
      (processLine st l).closeConn = false := by
  have hb : trimRightCRLF l ≠ "" := by
    intro hb
    rw [hb, goFields_nil] at htoks
    exact List.noConfusion htoks
  unfold processLine
  rw [if_neg hb, htoks]
  simp [processTokens, hv, incrReq]

/-- C6 witness: `KV/0.9 GET x` is answered with `426 UPGRADE_REQUIRED`. -/
theorem claim6_witness :
    (processLine initState "KV/0.9 GET x").resp
      = some (.text "426 UPGRADE_REQUIRED") :=
  (claim6_version_gating initState "KV/0.9 GET x" "KV/0.9" "GET" ["x"]
    (by decide) (by decide)).1

/-- C7: empty-line frame. A received line that is empty after stripping
trailing CR/LF produces no response, increments no counter (including the
total request counter), leaves the store unchanged, and lets the handler
continue with the next line. -/
theorem claim7_blank_line (st : ServerState) (l : String)
    (h : trimRightCRLF l = "") :
    processLine st l = ⟨st, none, false⟩ := by
  unfold processLine
  rw [h]
  simp

/-- C7 witness: the line `"\r\n"` is silently ignored. -/
theorem claim7_witness : processLine initState "\r\n" = ⟨initState, none, false⟩ :=
  claim7_blank_line initState "\r\n" (by decide)

/-- C9: a received line that is non-empty after stripping trailing CR/LF
but consists only of whitespace is not silently ignored: the request
counter is incremented and the server responds `400 BAD_REQUEST`, since
splitting it yields no tokens. -/
theorem claim9_whitespace_line (st : ServerState) (l : String)
    (hne : trimRightCRLF l ≠ "")
    (hsp : ∀ c ∈ (trimRightCRLF l).data, isGoSpace c = true) :
    processLine st l = ⟨incrReq st, some (.text "400 BAD_REQUEST"), false⟩ := by
  have htoks : goFields (trimRightCRLF l) = [] := by
    unfold goFields
    rw [fieldsAux_all_space _ hsp]
    rfl
  unfold processLine
  rw [if_neg hne, htoks]
  rfl

/-- C9 witness: the line `" \n"` (a single space) is counted and answered
with `400 BAD_REQUEST`. -/
theorem claim9_witness :
    processLine initState " \n"
      = ⟨incrReq initState, some (.text "400 BAD_REQUEST"), false⟩ :=
  claim9_whitespace_line initState " \n" (by decide) (by decide)

end KV
